import Mathlib

/-!
Verification of the OER article-scraper pipeline (oer_scraper package).

This file gives a shallow embedding of the parts of the code that the
specification's claims are about:

* `parser.py`            — `Parser.find_overpotential`, `Parser.find_catalyst`,
                           `Parser.extract_text_from_pdf`, `Parser.parse_pdf`;
* `parser_ml_ready.py`   — `MLReadyParser.extract_numeric_value`,
                           `MLReadyParser.parse_single_article` and the feature
                           extractors it calls;
* `parser_html.py`       — `NatureHTMLParser.extract_overpotential`;
* `utils.py`             — `paywall_detection`;
* `scraper_ml_ready.py`  — `MLReadyScraper.make_request`,
                           `MLReadyScraper.download_and_process_article`,
                           `MLReadyScraper.is_already_processed`,
                           `MLReadyScraper.save_progress`;
* `scraper_nature_requests.py` — `NatureRequestsScraper.make_request`,
                           `NatureRequestsScraper.save_progress`;
* `config.py`            — the keyword vocabularies and pattern lists.

Python strings are modelled as `List Char` (with `String` at the API
boundary), Python floats as `ℚ` (every numeric branch exercised here is
exact in both representations), and the specific regular expressions used
by the code are hand-compiled to a small backtracking matcher whose result
list is ordered exactly as Python's `re` backtracking explores
alternatives, so that the head of the list is the match `re` reports.
-/

set_option maxRecDepth 10000

namespace OERScraper

/-! ## Character helpers (Python `str` / `re` semantics, ASCII plus η) -/

/-- Python regex `\s` for the character set actually reachable in this code
    base: space, tab, newline, carriage return, vertical tab, form feed. -/
def isSpaceCh (c : Char) : Bool :=
  c == ' ' || c == '\t' || c == '\n' || c == '\r' || c == '\x0b' || c == '\x0c'

/-- Python `str.lower` / `re.IGNORECASE` folding restricted to the characters
    the source patterns use: ASCII letters plus the Greek letter η (whose
    uppercase form Η also lowers to η). -/
def lowerCh (c : Char) : Char :=
  if c == 'Η' then 'η' else c.toLower

/-- Lowercase a whole string, as Python `str.lower()`. -/
def lowers (s : List Char) : List Char := s.map lowerCh

/-- Python regex `\w` (ASCII range): letters, digits, underscore. -/
def isWordCh (c : Char) : Bool := c.isAlphanum || c == '_'

/-- Python substring test `needle in hay`. -/
def isSubstr (needle : List Char) : List Char → Bool
  | [] => needle.isEmpty
  | c :: rest => needle.isPrefixOf (c :: rest) || isSubstr needle rest

/-- Python `str.strip()`: drop whitespace from both ends. -/
def pyStrip (s : List Char) : List Char :=
  ((s.dropWhile isSpaceCh).reverse.dropWhile isSpaceCh).reverse

/-- Numeric value of a digit string, as Python `float` of an all-digit capture.

    (Only applied to strings of ASCII digits captured by `\d` groups.) -/
def digitsToNat (d : List Char) : Nat :=
  d.foldl (fun n c => n * 10 + (c.toNat - 48)) 0

/-! ## Exact numbers for the Python float values

Every float manipulated by the extraction code is produced by `float(...)`
on a decimal capture and then at most multiplied by 1000, compared against
small integer bounds, minimized, and rounded to 2 decimal places.  On the
magnitudes reachable here each of those operations gives the same answer
for IEEE doubles and for exact rationals, so the embedding computes with
an exact numerator/denominator pair (`PyFloat`), whose operations reduce
inside the kernel; `PyFloat.toQ` maps into `ℚ` for readable statements. -/

structure PyFloat where
  num : ℤ
  den : ℕ
deriving DecidableEq, Repr

namespace PyFloat

/-- Python `float` of an all-digit capture. -/
def ofDigits (d : List Char) : PyFloat := ⟨digitsToNat d, 1⟩

/-- Python `float` of a capture `⟨int⟩.⟨frac⟩` (also covering a trailing
    bare dot, for which `frac` is empty). -/
def ofDecimal (intPart frac : List Char) : PyFloat :=
  ⟨digitsToNat (intPart ++ frac), 10 ^ frac.length⟩

/-- Multiplication by a natural constant (only `value * 1000` occurs). -/
def mulNat (a : PyFloat) (m : ℕ) : PyFloat := ⟨a.num * m, a.den⟩

/-- Comparison `a <= b` (denominators are positive by construction). -/
def ble (a b : PyFloat) : Bool := a.num * b.den ≤ b.num * a.den

/-- Comparison `a < b`. -/
def blt (a b : PyFloat) : Bool := a.num * b.den < b.num * a.den

/-- Comparison against an integer bound. -/
def natLe (n : ℕ) (a : PyFloat) : Bool := (n : ℤ) * a.den ≤ a.num

def leNat (a : PyFloat) (n : ℕ) : Bool := a.num ≤ (n : ℤ) * a.den

/-- Python `min` of two values (the first argument wins ties, as in Python). -/
def pymin (a b : PyFloat) : PyFloat := if ble a b then a else b

/-- Python `round(x, 2)`: round `x * 100` to the nearest integer, ties to
    even, and keep denominator 100.  (Every value rounded by the code has
    `x * 100` integral, so the tie rule never fires and the exact result
    agrees with rounding the corresponding double.) -/
def round2 (a : PyFloat) : PyFloat :=
  let a100 : ℤ := a.num * 100
  let f : ℤ := a100 / a.den
  let r : ℤ := a100 % a.den
  let up : ℤ :=
    if 2 * r < a.den then f
    else if (a.den : ℤ) < 2 * r then f + 1
    else if f % 2 = 0 then f else f + 1
  ⟨up, 100⟩

/-- Value of a `PyFloat` as a rational number (statement-level only). -/
def toQ (a : PyFloat) : ℚ := (a.num : ℚ) / (a.den : ℚ)

end PyFloat

/-- Python `min` over a nonempty list (left-biased, as Python's `min`); the
    empty case returns a dummy the code never reaches. -/
def listMin : List PyFloat → PyFloat
  | [] => ⟨0, 1⟩
  | [x] => x
  | x :: y :: rest => PyFloat.pymin x (listMin (y :: rest))

/-! ## A small backtracking regex engine

A `Matcher α` consumes a prefix of the input and returns every way the
hand-compiled pattern can match, as a list of (result, remaining input)
pairs ordered by the priority with which Python's `re` backtracking would
try them (alternation left first, greedy repetition longest first, lazy
repetition shortest first).  The head of the list is therefore the match
`re` itself produces at that position. -/

abbrev Matcher (α : Type) : Type := List Char → List (α × List Char)

instance : Monad Matcher where
  pure a := fun s => [(a, s)]
  bind m f := fun s => (m s).flatMap (fun p => f p.1 p.2)

/-- Alternation `a|b`: try the left alternative first. -/
def malt (m₁ m₂ : Matcher α) : Matcher α := fun s => m₁ s ++ m₂ s

/-- Literal text, optionally case-insensitive; returns the text as it
    appears in the input (so a `(mV|…)` group remembers the actual case). -/
def mlit : List Char → Bool → Matcher (List Char)
  | [], _ => fun s => [([], s)]
  | c :: cs, ci => fun s =>
    match s with
    | [] => []
    | d :: rest =>
      if (if ci then lowerCh c == lowerCh d else c == d) then
        (mlit cs ci rest).map (fun p => (d :: p.1, p.2))
      else []

/-- Greedy `?` on a matcher: try the present alternative first. -/
def mopt (m : Matcher α) : Matcher (Option α) :=
  malt (fun s => (m s).map (fun p => (some p.1, p.2))) (fun s => [(none, s)])

/-- Single-character class `[...]`. -/
def mcls (p : Char → Bool) : Matcher Char := fun s =>
  match s with
  | [] => []
  | c :: rest => if p c then [(c, rest)] else []

/-- Length of the maximal prefix of `s` made of characters satisfying `p`. -/
def runLen (p : Char → Bool) : List Char → Nat
  | [] => 0
  | c :: rest => if p c then runLen p rest + 1 else 0

/-- Character-class repetition `[class]{lo,hi}` (with `hi = none` for an
    unbounded bound): all admissible lengths, longest first when greedy
    (`lazyq = false`), shortest first when lazy (`lazyq = true`).  Covers
    every repetition in the source patterns (they all repeat single-character
    classes such as `\s`, `\d`, `[\s\S]` and the catalyst-name class). -/
def clsRep (p : Char → Bool) (lo : Nat) (hi : Option Nat) (lazyq : Bool) :
    Matcher (List Char) := fun s =>
  let maxAvail := runLen p s
  let maxLen := match hi with
    | none => maxAvail
    | some h => min h maxAvail
  if lo > maxLen then []
  else
    let lens := (List.range (maxLen - lo + 1)).map (fun i => lo + i)
    let ordered := if lazyq then lens else lens.reverse
    ordered.map (fun n => (s.take n, s.drop n))

/-- Highest-priority match of the pattern at exactly this position. -/
def mfirst (m : Matcher α) (s : List Char) : Option (α × List Char) :=
  (m s).head?

/-- Python `re.finditer`/`re.findall`: scan left to right, keep the leftmost
    match at each point, resume after it (advancing one character when a
    match consumed nothing).  `fuel` only bounds the recursion; it is always
    called with more fuel than positions. -/
def finditerGo (m : Matcher α) : Nat → List Char → List α
  | 0, _ => []
  | fuel + 1, s =>
    match mfirst m s with
    | none =>
      match s with
      | [] => []
      | _ :: rest => finditerGo m fuel rest
    | some (a, rest) =>
      if rest.length < s.length then a :: finditerGo m fuel rest
      else
        match s with
        | [] => [a]
        | _ :: tl => a :: finditerGo m fuel tl

def finditer (m : Matcher α) (s : List Char) : List α :=
  finditerGo m (s.length + 1) s

/-- Python `re.search`: the first position with a match; returns the match
    result together with the whole matched text (`group(0)`). -/
def researchGo (m : Matcher α) : Nat → List Char → Option (α × List Char)
  | 0, _ => none
  | fuel + 1, s =>
    match mfirst m s with
    | some (a, rest) => some (a, s.take (s.length - rest.length))
    | none =>
      match s with
      | [] => none
      | _ :: tl => researchGo m fuel tl

def research (m : Matcher α) (s : List Char) : Option (α × List Char) :=
  researchGo m (s.length + 1) s

/-- Python `re.search(r'\b' + re.escape(kw) + r'\b', text, re.IGNORECASE)`
    as used for the keyword fallbacks: `kw` occurs case-insensitively with
    no word character adjacent on either side.  (Every keyword in the
    config vocabularies begins and ends with a word character, so the two
    `\b` assertions reduce to exactly this.) -/
def wordSearchGo (kw : List Char) (prevOk : Bool) : List Char → Bool
  | [] => false
  | c :: rest =>
    (prevOk && decide (((mlit kw true) (c :: rest)).any
        (fun p => p.2.isEmpty || !isWordCh (p.2.headD ' ')))) ||
      wordSearchGo kw (!isWordCh c) rest

def wordSearch (kw : List Char) (text : List Char) : Bool :=
  wordSearchGo kw true text

/-! ## Sentence splitting (`Parser._split_sentences`, parser.py lines 33-39)

`re.sub(r'\s+', ' ', text)` collapses every whitespace run to one space;
`re.split(r'(?<=[.;])\s+', text)` then cuts at each (now single-character)
whitespace occurrence directly preceded by `.` or `;`, consuming the space. -/

def collapseWs : List Char → List Char
  | [] => []
  | [c] => if isSpaceCh c then [' '] else [c]
  | c :: d :: rest =>
    if isSpaceCh c then
      if isSpaceCh d then collapseWs (d :: rest)
      else ' ' :: collapseWs (d :: rest)
    else c :: collapseWs (d :: rest)

def splitPunctGo : List Char → List Char → List (List Char)
  | acc, [] => [acc.reverse]
  | acc, [c] => [(c :: acc).reverse]
  | acc, c :: d :: rest =>
    if (c == '.' || c == ';') && d == ' ' then
      (acc.reverse ++ [c]) :: splitPunctGo [] rest
    else splitPunctGo (c :: acc) (d :: rest)

def splitSentences (text : List Char) : List (List Char) :=
  splitPunctGo [] (collapseWs text)

/-! ## `Parser.find_overpotential` (parser.py lines 128-175) -/

/-- Value/unit pattern of `find_overpotential` (parser.py line 145):
    `(η|overpotential)?\s*=?\s*(\d{2,4})\s*(mV|mv|V|v)` with `re.IGNORECASE`;
    the result is (group 2, group 3): the 2-4 digit magnitude and the unit
    text as it appears in the input. -/
def opValueUnit : Matcher (List Char × List Char) := do
  _ ← mopt (malt (mlit ['η'] true) (mlit "overpotential".data true))
  _ ← clsRep isSpaceCh 0 none false
  _ ← mopt (mlit ['='] true)
  _ ← clsRep isSpaceCh 0 none false
  let d ← clsRep Char.isDigit 2 (some 4) false
  _ ← clsRep isSpaceCh 0 none false
  let u ← malt (mlit "mV".data true)
      (malt (mlit "mv".data true) (malt (mlit "V".data true) (mlit "v".data true)))
  pure (d, u)

/-- Contextual filter of `find_overpotential` (parser.py line 141): the
    lowercased sentence must contain one of "overpotential", "η", "mv", " v". -/
def opContextHit (sent : List Char) : Bool :=
  ["overpotential".data, ['η'], "mv".data, " v".data].any
    (fun k => isSubstr k (lowers sent))

/-- Unit normalization and physical-plausibility filter applied to one match
    (parser.py lines 150-164): `value = float(group 2)`; multiplied by 1000
    when `group(3).lower() == 'v'`; kept only when `10 <= value <= 2000`. -/
def opNormalize (du : List Char × List Char) : Option PyFloat :=
  let v := PyFloat.ofDigits du.1
  let v := if lowers du.2 == "v".data then v.mulNat 1000 else v
  if PyFloat.natLe 10 v && PyFloat.leNat v 2000 then some v else none

/-- Surviving candidates contributed by one sentence. -/
def sentenceCandidates (sent : List Char) : List PyFloat :=
  if opContextHit sent then (finditer opValueUnit sent).filterMap opNormalize
  else []

/-- Every surviving candidate of the whole text, in document order. -/
def overpotentialCandidates (text : List Char) : List PyFloat :=
  (splitSentences text).flatMap sentenceCandidates

/-- Result record `{'value': …, 'unit': 'mV'}` of `find_overpotential`. -/
structure OverpotentialHit where
  value : PyFloat
  unit : String
deriving DecidableEq, Repr

/-- `Parser.find_overpotential` (parser.py lines 128-175): collect the
    in-band candidates sentence by sentence; `None` when there are none,
    otherwise the minimum, rounded to 2 decimal places, with unit "mV". -/
def findOverpotential (text : String) : Option OverpotentialHit :=
  let candidates := overpotentialCandidates text.data
  if candidates.isEmpty then none
  else some { value := (listMin candidates).round2, unit := "mV" }

/-- Matches of the value pattern inside context sentences, before unit
    normalization and plausibility filtering (the raw `(group 2, group 3)`
    pairs the loop of parser.py lines 150-164 iterates over). -/
def opRawHits (text : List Char) : List (List Char × List Char) :=
  (splitSentences text).flatMap
    (fun sent => if opContextHit sent then finditer opValueUnit sent else [])

/-! ## The decimal-capturing overpotential patterns

`parser_html.py` (NatureHTMLParser, lines 35-41) and `parser_ml_ready.py`
(MLReadyParser, lines 28-32) share the regex shapes below; the capture
group `(\d+\.?\d*)` is passed in as a parameter so that the context step of
`extract_overpotential` (parser_html.py line 101), which re-searches the
pattern with the capture group textually replaced by the matched digits,
can be expressed by substituting a literal matcher for the group. -/

/-- Capture group `(\d+\.?\d*)`: greedy digits, optional dot, greedy digits. -/
def capNumber : Matcher (List Char) := do
  let d₁ ← clsRep Char.isDigit 1 none false
  let dot ← mopt (mlit ['.'] false)
  let d₂ ← clsRep Char.isDigit 0 none false
  pure (d₁ ++ (dot.getD []) ++ d₂)

/-- Python `float` of a `(\d+\.?\d*)` capture (always parses, so the
    `except ValueError: continue` in the source is unreachable for it). -/
def parseFloatCapture (m : List Char) : PyFloat :=
  let ip := m.takeWhile (fun c => c != '.')
  match m.dropWhile (fun c => c != '.') with
  | [] => PyFloat.ofDigits ip
  | _ :: frac => PyFloat.ofDecimal ip frac

/-- Matcher for the matched digits substituted back into the pattern text by
    `pattern.replace(r'(\d+\.?\d*)', match)`: each digit matches itself and
    the dot, being a regex metacharacter in the replaced pattern, matches
    any character except a newline. -/
def minsertLit : List Char → Matcher Unit
  | [] => fun s => [((), s)]
  | c :: cs => fun s =>
    match s with
    | [] => []
    | d :: rest =>
      if (if c == '.' then d != '\n' else c == d) then
        (minsertLit cs rest).map (fun p => ((), p.2))
      else []

/-- Capture-group replacement used by the context step: consume the literal
    match text (with regex-dot semantics) and report it as the capture. -/
def mInsert (m : List Char) : Matcher (List Char) := fun s =>
  (minsertLit m s).map (fun p => (m, p.2))

/-- Class `[mM]` of the unit tail. -/
def isMCh (c : Char) : Bool := c == 'm' || c == 'M'

/-- Class `[Vv]` of the unit tail. -/
def isVCh (c : Char) : Bool := c == 'V' || c == 'v'

/-- Unit tail `\s*[mM]?[Vv]` shared by the decimal overpotential patterns. -/
def unitTail : Matcher Unit := do
  _ ← clsRep isSpaceCh 0 none false
  _ ← mopt (mcls isMCh)
  _ ← mcls isVCh
  pure ()

/-- Pattern `overpotential[\s\S]{0,200}?(\d+\.?\d*)\s*[mM]?[Vv]`. -/
def htmlPat1 (cap : Matcher (List Char)) (ci : Bool) : Matcher (List Char) := do
  _ ← mlit "overpotential".data ci
  _ ← clsRep (fun _ => true) 0 (some 200) true
  let v ← cap
  _ ← unitTail
  pure v

/-- Pattern `η[\s\S]{0,200}?(\d+\.?\d*)\s*[mM]?[Vv]`. -/
def htmlPat2 (cap : Matcher (List Char)) (ci : Bool) : Matcher (List Char) := do
  _ ← mlit ['η'] ci
  _ ← clsRep (fun _ => true) 0 (some 200) true
  let v ← cap
  _ ← unitTail
  pure v

/-- Pattern `(\d+\.?\d*)\s*[mM]?[Vv][\s\S]{0,200}?overpotential`
    (parser_html.py only). -/
def htmlPat3 (cap : Matcher (List Char)) (ci : Bool) : Matcher (List Char) := do
  let v ← cap
  _ ← unitTail
  _ ← clsRep (fun _ => true) 0 (some 200) true
  _ ← mlit "overpotential".data ci
  pure v

/-- Pattern `overpotential\s*of\s*(\d+\.?\d*)\s*[mM]?[Vv]`
    (parser_html.py only). -/
def htmlPat4 (cap : Matcher (List Char)) (ci : Bool) : Matcher (List Char) := do
  _ ← mlit "overpotential".data ci
  _ ← clsRep isSpaceCh 0 none false
  _ ← mlit "of".data ci
  _ ← clsRep isSpaceCh 0 none false
  let v ← cap
  _ ← unitTail
  pure v

/-- Pattern `η\s*=\s*(\d+\.?\d*)\s*[mM]?[Vv]`. -/
def htmlPat5 (cap : Matcher (List Char)) (ci : Bool) : Matcher (List Char) := do
  _ ← mlit ['η'] ci
  _ ← clsRep isSpaceCh 0 none false
  _ ← mlit ['='] ci
  _ ← clsRep isSpaceCh 0 none false
  let v ← cap
  _ ← unitTail
  pure v

/-- Parameterized pattern shape used for both `re.findall` and the
    capture-replaced context `re.search`. -/
abbrev HtmlPat : Type := Matcher (List Char) → Bool → Matcher (List Char)

/-- Pattern list of `NatureHTMLParser.extract_overpotential`
    (parser_html.py lines 35-41), in source order. -/
def natureOverpotentialPatterns : List HtmlPat :=
  [htmlPat1, htmlPat2, htmlPat3, htmlPat4, htmlPat5]

/-- Pattern list `'overpotential'` of MLReadyParser (parser_ml_ready.py
    lines 28-32): textually the first, second and fifth shapes. -/
def mlOverpotentialPatterns : List HtmlPat :=
  [htmlPat1, htmlPat2, htmlPat5]

/-! ## `NatureHTMLParser.extract_overpotential` (parser_html.py lines 90-113) -/

/-- Context adjustment and band filter for one findall capture `m`
    (parser_html.py lines 100-109): re-search the pattern with the capture
    replaced by the literal match over the lowered text; when the matched
    context contains " v" and the value is below 10, multiply by 1000; then
    report `round(value, 2)` only when `10 <= value <= 1000`. -/
def htmlTryMatch (tl : List Char) (pat : HtmlPat) (m : List Char) : Option PyFloat :=
  let value := parseFloatCapture m
  let value :=
    match research (pat (mInsert m) false) tl with
    | some (_, whole) =>
      if isSubstr " v".data whole && PyFloat.blt value ⟨10, 1⟩ then value.mulNat 1000
      else value
    | none => value
  if PyFloat.natLe 10 value && PyFloat.leNat value 1000 then some value.round2 else none

/-- `NatureHTMLParser.extract_overpotential` (parser_html.py lines 90-113):
    `None` on empty text; otherwise the first pattern and first capture that
    survives the context and band steps, over the lowercased text. -/
def extractOverpotentialHtml (text : String) : Option PyFloat :=
  if text.data.isEmpty then none
  else
    let tl := lowers text.data
    natureOverpotentialPatterns.findSome? (fun pat =>
      (finditer (pat capNumber true) tl).findSome? (htmlTryMatch tl pat))

/-! ## `MLReadyParser.extract_numeric_value` (parser_ml_ready.py lines 135-145) -/

/-- `MLReadyParser.extract_numeric_value`: first pattern, first capture,
    parsed as a float — with no unit normalization and no plausibility
    band.  (The `except ValueError` branch is unreachable because every
    `(\d+\.?\d*)` capture parses.) -/
def extractNumericValue (pats : List HtmlPat) (text : List Char) : Option PyFloat :=
  pats.findSome? (fun pat =>
    ((finditer (pat capNumber true) text).map parseFloatCapture).head?)

/-! ## Claim C1 -/

/-- C1: for every input text, when `Parser.find_overpotential` finds more than
    one plausible candidate (a 2-4 digit number with unit mV or V inside a
    sentence containing an overpotential trigger token, normalized to mV and
    lying in the plausibility band), it returns the minimum of all candidates,
    rounded to 2 decimal places, as a record with value and unit "mV"; in
    particular, for a text whose overpotential-context sentences contain the
    two mentions "312 mV" and "198 mV", the extracted value is 198.0. -/
theorem findOverpotential_min_tiebreak :
    (∀ text : String, 2 ≤ (overpotentialCandidates text.data).length →
      findOverpotential text =
        some ⟨(listMin (overpotentialCandidates text.data)).round2, "mV"⟩) ∧
    findOverpotential
        "The overpotential was 312 mV. An overpotential of 198 mV was seen." =
      some ⟨⟨19800, 100⟩, "mV"⟩ ∧
    PyFloat.toQ ⟨19800, 100⟩ = 198 := by
  refine ⟨?_, by decide, by norm_num [PyFloat.toQ]⟩
  intro text h
  have hne : (overpotentialCandidates text.data).isEmpty = false := by
    rcases l : overpotentialCandidates text.data with _ | ⟨a, as⟩
    · rw [l] at h; simp at h
    · rfl
  simp [findOverpotential, hne]

/-- Witness for the C1 theorem: the two-mention text has at least two
    surviving candidates, and the theorem applies to it. -/
theorem findOverpotential_min_tiebreak_witness :
    2 ≤ (overpotentialCandidates
        ("The overpotential was 312 mV. An overpotential of 198 mV was seen.").data).length ∧
    findOverpotential
        "The overpotential was 312 mV. An overpotential of 198 mV was seen." =
      some ⟨(listMin (overpotentialCandidates
        ("The overpotential was 312 mV. An overpotential of 198 mV was seen.").data)).round2, "mV"⟩ :=
  ⟨by decide, findOverpotential_min_tiebreak.1 _ (by decide)⟩

/-! ## Claims C2 and C3: supporting lemmas -/

/-- Structural glue: the surviving candidate list is exactly the raw context
    matches run through unit normalization and the plausibility filter. -/
theorem overpotentialCandidates_eq_rawHits (text : List Char) :
    overpotentialCandidates text = (opRawHits text).filterMap opNormalize := by
  unfold overpotentialCandidates opRawHits
  induction splitSentences text with
  | nil => rfl
  | cons s ss ih =>
    simp only [List.flatMap_cons, List.filterMap_append, ih]
    congr 1
    by_cases h : opContextHit s
    · simp [sentenceCandidates, h]
    · simp [sentenceCandidates, h]

/-- Normalization only lets through values inside the [10, 2000] band. -/
theorem opNormalize_inBand {du : List Char × List Char} {c : PyFloat}
    (h : opNormalize du = some c) :
    (PyFloat.natLe 10 c && PyFloat.leNat c 2000) = true := by
  simp only [opNormalize] at h
  split at h <;> split at h <;>
    first
      | (injection h with h₂; subst h₂; assumption)
      | cases h

/-! ## Claim C2 -/

/-- C2 counterexample: on the text "η = 0.28 V" the integer-only magnitude
    group of `Parser.find_overpotential` captures "28" with unit "V"; volt
    normalization turns it into 28000 mV, the plausibility filter discards
    it, and the function returns `None` — not 280.0 as the claim states. -/
theorem findOverpotential_volt_example_refuted :
    findOverpotential "η = 0.28 V" = none ∧
    opRawHits "η = 0.28 V".data = [(['2', '8'], ['V'])] := by
  exact ⟨by decide, by decide⟩

/-- C2 (amended): in `Parser.find_overpotential` a captured value whose unit
    lowercases to "v" is multiplied by 1000 before the plausibility filter
    (the candidate list is the raw matches normalized then band-filtered,
    and a volt-unit match enters the band test as 1000 × its magnitude);
    but the magnitude group captures only 2-4 digit integers, so on the
    text "η = 0.28 V" the single raw match is ("28", "V"), normalized to
    28000 mV and discarded, and `find_overpotential` returns `None`, while
    `NatureHTMLParser.extract_overpotential`, whose patterns capture
    decimals, extracts 280.0 from the same text. -/
theorem findOverpotential_volt_normalization_amended :
    (∀ text : List Char,
      overpotentialCandidates text = (opRawHits text).filterMap opNormalize) ∧
    (∀ d u : List Char, lowers u = "v".data →
      opNormalize (d, u) =
        (if PyFloat.natLe 10 ((PyFloat.ofDigits d).mulNat 1000) &&
            PyFloat.leNat ((PyFloat.ofDigits d).mulNat 1000) 2000 then
          some ((PyFloat.ofDigits d).mulNat 1000)
        else none)) ∧
    opRawHits "η = 0.28 V".data = [(['2', '8'], ['V'])] ∧
    findOverpotential "η = 0.28 V" = none ∧
    extractOverpotentialHtml "η = 0.28 V" = some ⟨28000, 100⟩ ∧
    PyFloat.toQ ⟨28000, 100⟩ = 280 := by
  refine ⟨overpotentialCandidates_eq_rawHits, ?_, by decide, by decide, by decide,
    by norm_num [PyFloat.toQ]⟩
  intro d u h
  simp only [opNormalize, h, beq_self_eq_true, if_true]

/-- Witness for the C2 amended theorem at the match of the "η = 0.28 V"
    text: the unit "V" lowercases to "v" and its normalization is as the
    theorem states. -/
theorem findOverpotential_volt_normalization_amended_witness :
    overpotentialCandidates "η = 0.28 V".data =
      (opRawHits "η = 0.28 V".data).filterMap opNormalize ∧
    lowers ['V'] = "v".data ∧
    opNormalize (['2', '8'], ['V']) =
      (if PyFloat.natLe 10 ((PyFloat.ofDigits ['2', '8']).mulNat 1000) &&
          PyFloat.leNat ((PyFloat.ofDigits ['2', '8']).mulNat 1000) 2000 then
        some ((PyFloat.ofDigits ['2', '8']).mulNat 1000)
      else none) :=
  ⟨findOverpotential_volt_normalization_amended.1 "η = 0.28 V".data, by decide,
    findOverpotential_volt_normalization_amended.2.1 ['2', '8'] ['V'] (by decide)⟩

/-! ## Claim C3 -/

/-- C3 counterexample: `MLReadyParser.extract_numeric_value` with the ML
    overpotential pattern set returns 5000 on "overpotential of 5000 mV" —
    a value far outside [10, 2000] mV that is not discarded, refuting the
    claim for that numeric overpotential extraction path. -/
theorem extractNumericValue_no_band_refuted :
    extractNumericValue mlOverpotentialPatterns
        "overpotential of 5000 mV".data = some ⟨5000, 1⟩ ∧
    PyFloat.leNat ⟨5000, 1⟩ 2000 = false ∧
    PyFloat.toQ ⟨5000, 1⟩ = 5000 := by
  refine ⟨by decide, by decide, by norm_num [PyFloat.toQ]⟩

/-- C3 (amended): `Parser.find_overpotential` discards every candidate whose
    normalized value lies outside [10, 2000] mV (every surviving candidate
    is in band) and returns `None` exactly when no candidate survives; but
    `MLReadyParser.extract_numeric_value` applies no plausibility band at
    all: it returns the first parsed capture of the first matching pattern,
    and is `None` exactly when no pattern matches anywhere in the text. -/
theorem overpotential_band_and_null_amended :
    (∀ (text : List Char) (c : PyFloat), c ∈ overpotentialCandidates text →
      (PyFloat.natLe 10 c && PyFloat.leNat c 2000) = true) ∧
    (∀ text : String,
      (findOverpotential text = none ↔ overpotentialCandidates text.data = [])) ∧
    (∀ (pats : List HtmlPat) (text : List Char),
      (extractNumericValue pats text = none ↔
        ∀ pat ∈ pats, finditer (pat capNumber true) text = [])) := by
  refine ⟨?_, ?_, ?_⟩
  · intro text c hc
    rw [overpotentialCandidates_eq_rawHits] at hc
    obtain ⟨du, _, hdu⟩ := List.mem_filterMap.1 hc
    exact opNormalize_inBand hdu
  · intro text
    simp only [findOverpotential]
    rcases l : overpotentialCandidates text.data with _ | ⟨a, as⟩ <;> simp [l]
  · intro pats text
    simp only [extractNumericValue, List.findSome?_eq_none_iff]
    constructor
    · intro h pat hp
      have := h pat hp
      rcases l : finditer (pat capNumber true) text with _ | ⟨m, ms⟩
      · rfl
      · rw [l] at this; simp at this
    · intro h pat hp
      rw [h pat hp]; rfl

/-- Witness for the C3 amended theorem: a concrete in-band candidate of a
    concrete text satisfies the band bound the theorem asserts. -/
theorem overpotential_band_and_null_amended_witness :
    (⟨198, 1⟩ : PyFloat) ∈
      overpotentialCandidates "an overpotential of 198 mV here.".data ∧
    (PyFloat.natLe 10 ⟨198, 1⟩ && PyFloat.leNat ⟨198, 1⟩ 2000) = true :=
  ⟨by decide,
    overpotential_band_and_null_amended.1
      "an overpotential of 198 mV here.".data ⟨198, 1⟩ (by decide)⟩

/-! ## `paywall_detection` (utils.py lines 125-149) -/

/-- Negative phrase list `pay_phrases` (utils.py lines 134-137). -/
def payPhrases : List (List Char) :=
  ["purchase".data, "access denied".data, "sign in".data, "sign in to".data,
   "subscribe".data, "buy".data, "institutional access".data,
   "you do not have access".data, "purchase article".data, "login".data]

/-- `paywall_detection`: lowercase the text; any negative phrase present ⇒
    `True` (paywalled); otherwise, if a positive indicator ("download pdf",
    "supplementary information", or "pdf" together with "download") is
    present ⇒ `False`; otherwise `False` by permissive default. -/
def paywallDetection (htmlText : String) : Bool :=
  let lowered := lowers htmlText.data
  if payPhrases.any (fun ph => isSubstr ph lowered) then true
  else if isSubstr "download pdf".data lowered
      || isSubstr "supplementary information".data lowered
      || (isSubstr "pdf".data lowered && isSubstr "download".data lowered) then
    false
  else false

/-! ## Claim C5 -/

/-- C5: `paywall_detection` is an order-sensitive two-layer decision that
    classifies a document paywalled (`true`) exactly when some negative
    phrase of the fixed list occurs in the lowercased text, and classifies
    it open (`false`) otherwise — both when a positive indicator is present
    and, by permissive default, when neither layer matches. -/
theorem paywallDetection_eq_negative_layer (text : String) :
    paywallDetection text =
      payPhrases.any (fun ph => isSubstr ph (lowers text.data)) := by
  cases h : payPhrases.any (fun ph => isSubstr ph (lowers text.data)) <;>
    simp [paywallDetection, h]

/-! ## `make_request` (scraper_ml_ready.py lines 43-69 and
    scraper_nature_requests.py lines 50-78, identical retry logic)

The status oracle gives the status code of the request issued at attempt
`i`.  Both variants return the response on 200, return `None` at once on
403/404, sleep `10 * (attempt + 1)` seconds and retry on 429, and fall
through to the next attempt on any other status; exhausting the attempt
bound returns `None`.  The embedding returns the attempt index whose
response is returned together with the list of 429 backoff waits. -/

def makeRequestGo (status : ℕ → ℕ) (attempt : ℕ) : ℕ → Option ℕ × List ℕ
  | 0 => (none, [])
  | remaining + 1 =>
    let s := status attempt
    if s = 200 then (some attempt, [])
    else if s = 403 ∨ s = 404 then (none, [])
    else if s = 429 then
      let r := makeRequestGo status (attempt + 1) remaining
      (r.1, 10 * (attempt + 1) :: r.2)
    else makeRequestGo status (attempt + 1) remaining

/-- `make_request(url, max_retries)`; `max_retries` defaults to 3 in both
    sources. -/
def makeRequest (status : ℕ → ℕ) (maxRetries : ℕ) : Option ℕ × List ℕ :=
  makeRequestGo status 0 maxRetries

/-- Status oracle delivering three 429 responses followed by a 200. -/
def statusThree429Then200 : ℕ → ℕ := fun i => if i < 3 then 429 else 200

/-- Unfolding of the loop at a 200 response: the current attempt's response
    is returned. -/
theorem makeRequestGo_200 (status : ℕ → ℕ) (a rem : ℕ) (hs : status a = 200) :
    makeRequestGo status a (rem + 1) = (some a, []) := by
  simp [makeRequestGo, hs]

/-- Unfolding of the loop at a 429 response: wait `10 * (attempt + 1)` and
    retry with the next attempt. -/
theorem makeRequestGo_429 (status : ℕ → ℕ) (a rem : ℕ) (hs : status a = 429) :
    makeRequestGo status a (rem + 1) =
      ((makeRequestGo status (a + 1) rem).1,
        10 * (a + 1) :: (makeRequestGo status (a + 1) rem).2) := by
  simp [makeRequestGo, hs]

/-- Shifting the attempt-scaled wait schedule by one attempt. -/
theorem waitList_succ (a k : ℕ) :
    (List.range (k + 1)).map (fun i => 10 * (a + i + 1)) =
      10 * (a + 1) :: (List.range k).map (fun i => 10 * (a + 1 + i + 1)) := by
  rw [List.range_succ_eq_map, List.map_cons, List.map_map]
  have hf : ((fun i => 10 * (a + i + 1)) ∘ Nat.succ) =
      (fun i => 10 * (a + 1 + i + 1)) := by
    funext i
    simp only [Function.comp]
    omega
  rw [hf]

/-- Success shape of the retry loop: `k` leading 429 responses followed by
    a 200 within the bound give the attempt-`k` response after waits
    `10 * (i + 1)` for each 429 attempt `i`. -/
theorem makeRequestGo_success (status : ℕ → ℕ) :
    ∀ (k a rem : ℕ), k < rem →
      (∀ i, i < k → status (a + i) = 429) → status (a + k) = 200 →
      makeRequestGo status a rem =
        (some (a + k), (List.range k).map (fun i => 10 * (a + i + 1))) := by
  intro k
  induction k with
  | zero =>
    intro a rem h h429 h200
    match rem, h with
    | rem + 1, _ =>
      rw [Nat.add_zero] at h200
      rw [makeRequestGo_200 status a rem h200]
      simp
  | succ k ih =>
    intro a rem h h429 h200
    match rem, h with
    | rem + 1, h =>
      have hs : status a = 429 := by simpa using h429 0 (Nat.succ_pos k)
      have hrec := ih (a + 1) rem (Nat.lt_of_succ_lt_succ h)
        (fun i hi => by
          have h₂ := h429 (i + 1) (Nat.succ_lt_succ hi)
          have he : a + 1 + i = a + (i + 1) := by omega
          rw [he]; exact h₂)
        (by
          have he : a + 1 + k = a + (k + 1) := by omega
          rw [he]; exact h200)
      rw [makeRequestGo_429 status a rem hs, hrec, waitList_succ]
      have he : a + 1 + k = a + (k + 1) := by omega
      rw [he]

/-- Exhaustion shape of the retry loop: 429 on every attempt within the
    bound returns no response after the full wait schedule. -/
theorem makeRequestGo_exhaust (status : ℕ → ℕ) :
    ∀ (rem a : ℕ), (∀ i, i < rem → status (a + i) = 429) →
      makeRequestGo status a rem =
        (none, (List.range rem).map (fun i => 10 * (a + i + 1))) := by
  intro rem
  induction rem with
  | zero => intro a _; rfl
  | succ rem ih =>
    intro a h429
    have hs : status a = 429 := by simpa using h429 0 (Nat.succ_pos rem)
    have hrec := ih (a + 1)
      (fun i hi => by
        have h₂ := h429 (i + 1) (Nat.succ_lt_succ hi)
        have he : a + 1 + i = a + (i + 1) := by omega
        rw [he]; exact h₂)
    rw [makeRequestGo_429 status a rem hs, hrec, waitList_succ]

/-! ## Claim C9 -/

/-- C9 counterexample: with the configured default `max_retries = 3`, three
    consecutive 429 responses exhaust the attempt bound — the fourth (200)
    response is never requested and `make_request` returns `None` (after
    waits 10, 20, 30), not the claimed eventual success. -/
theorem makeRequest_three429_default_refuted :
    makeRequest statusThree429Then200 3 = (none, [10, 20, 30]) := by decide

/-- C9 (amended): `make_request` retries a 429 response with an
    attempt-scaled wait of `10 * (attempt + 1)` seconds; `k` leading 429
    responses followed by a 200 strictly inside the attempt bound end in
    success (so three 429s then a 200 succeed only when `max_retries ≥ 4`,
    e.g. with bound 4, waits 10, 20, 30), and 429 on every attempt —
    in particular three consecutive 429s under the default bound 3 —
    exhausts the bound and returns no response. -/
theorem makeRequest_429_retry_amended :
    (∀ (status : ℕ → ℕ) (k maxRetries : ℕ), k < maxRetries →
      (∀ i, i < k → status i = 429) → status k = 200 →
      makeRequest status maxRetries =
        (some k, (List.range k).map (fun i => 10 * (i + 1)))) ∧
    (∀ (status : ℕ → ℕ) (maxRetries : ℕ),
      (∀ i, i < maxRetries → status i = 429) →
      makeRequest status maxRetries =
        (none, (List.range maxRetries).map (fun i => 10 * (i + 1)))) ∧
    makeRequest statusThree429Then200 4 = (some 3, [10, 20, 30]) := by
  refine ⟨?_, ?_, by decide⟩
  · intro status k maxRetries hk h429 h200
    have := makeRequestGo_success status k 0 maxRetries hk
      (by simpa using h429) (by simpa using h200)
    simpa [makeRequest] using this
  · intro status maxRetries h429
    have := makeRequestGo_exhaust status maxRetries 0 (by simpa using h429)
    simpa [makeRequest] using this

/-- Witness for the C9 amended theorem: both retry shapes applied to the
    three-429s-then-200 oracle, with bound 4 for the success shape and
    bound 3 for the exhaustion shape. -/
theorem makeRequest_429_retry_amended_witness :
    ((3 : ℕ) < 4 ∧
      makeRequest statusThree429Then200 4 =
        (some 3, (List.range 3).map (fun i => 10 * (i + 1)))) ∧
    makeRequest (fun _ => 429) 3 =
      (none, (List.range 3).map (fun i => 10 * (i + 1))) :=
  ⟨⟨by decide,
      makeRequest_429_retry_amended.1 statusThree429Then200 3 4 (by decide)
        (fun i hi => by simp [statusThree429Then200, hi]) (by decide)⟩,
    makeRequest_429_retry_amended.2.1 (fun _ => 429) 3 (fun _ _ => rfl)⟩

/-! ## `save_progress` (scraper_ml_ready.py lines 196-213 and
    scraper_nature_requests.py lines 255-265)

A checkpoint row carries its identifier column `doi` plus an abstract
payload standing for every other column of the record. -/

structure Row (α : Type) where
  doi : String
  payload : α
deriving DecidableEq, Repr

/-- pandas `df.drop_duplicates(subset=['doi'], keep='last')`: a row survives
    exactly when no later row has the same identifier; the original order of
    the surviving rows is preserved. -/
def dropDupKeepLast {α : Type} : List (Row α) → List (Row α)
  | [] => []
  | r :: rs =>
    if rs.any (fun r₂ => r₂.doi == r.doi) then dropDupKeepLast rs
    else r :: dropDupKeepLast rs

/-- pandas `df.drop_duplicates(subset=['doi'], keep='first')`: the first row
    of each identifier survives and every later row with that identifier is
    dropped. -/
def dropDupKeepFirst {α : Type} : List (Row α) → List (Row α)
  | [] => []
  | r :: rs =>
    r :: dropDupKeepFirst (rs.filter (fun r₂ => !(r₂.doi == r.doi)))
termination_by l => l.length
decreasing_by
  simp only [List.length_cons]
  have := List.length_filter_le (fun r₂ => !(r₂.doi == r.doi)) rs
  omega

/-- `MLReadyScraper.save_progress`: when the in-memory data is nonempty the
    persisted table becomes the data deduplicated on `doi` keeping the last
    row (`ensure_ml_data_types` only coerces column dtypes, leaving the row
    set unchanged); when it is empty nothing is written and the previously
    persisted table remains. -/
def saveProgressML {α : Type} (prev data : List (Row α)) : List (Row α) :=
  if data.isEmpty then prev else dropDupKeepLast data

/-- `NatureRequestsScraper.save_progress`: identical, except that it
    deduplicates with `keep='first'`. -/
def saveProgressNR {α : Type} (prev data : List (Row α)) : List (Row α) :=
  if data.isEmpty then prev else dropDupKeepFirst data

/-- Helper: consing onto a nonempty list does not change its last element. -/
theorem getLast?_cons_of_ne {α : Type} (r : α) {l : List α} (h : l ≠ []) :
    (r :: l).getLast? = l.getLast? := by
  match l, h with
  | x :: xs, _ => rw [List.getLast?_cons_cons]

/-- Keep-last deduplication leaves, for each identifier, exactly the last
    row that carried it. -/
theorem dropDupKeepLast_filter {α : Type} (doi : String) :
    ∀ l : List (Row α),
      (dropDupKeepLast l).filter (fun r => r.doi == doi) =
        ((l.filter (fun r => r.doi == doi)).getLast?).toList := by
  intro l
  induction l with
  | nil => rfl
  | cons r rs ih =>
    by_cases hany : rs.any (fun r₂ => r₂.doi == r.doi) = true
    · rw [show dropDupKeepLast (r :: rs) = dropDupKeepLast rs from by
        simp [dropDupKeepLast, hany]]
      rw [ih]
      by_cases hd : r.doi = doi
      · have hne : rs.filter (fun r₂ => r₂.doi == doi) ≠ [] := by
          obtain ⟨r₂, hr₂, hbeq⟩ := List.any_eq_true.1 hany
          have : r₂.doi = doi := by
            have := beq_iff_eq.1 hbeq
            rw [this, hd]
          intro hnil
          have : r₂ ∈ rs.filter (fun r₂ => r₂.doi == doi) :=
            List.mem_filter.2 ⟨hr₂, beq_iff_eq.2 this⟩
          rw [hnil] at this
          exact absurd this (List.not_mem_nil r₂)
        rw [show (r :: rs).filter (fun r => r.doi == doi) =
            r :: rs.filter (fun r => r.doi == doi) from by
          simp [List.filter_cons, hd]]
        rw [getLast?_cons_of_ne r hne]
      · rw [show (r :: rs).filter (fun r => r.doi == doi) =
            rs.filter (fun r => r.doi == doi) from by
          simp [List.filter_cons, hd]]
    · rw [show dropDupKeepLast (r :: rs) = r :: dropDupKeepLast rs from by
        simp [dropDupKeepLast, hany]]
      by_cases hd : r.doi = doi
      · have hnil : rs.filter (fun r₂ => r₂.doi == doi) = [] := by
          rw [List.filter_eq_nil_iff]
          intro r₂ hr₂
          intro hbeq
          exact hany (List.any_eq_true.2 ⟨r₂, hr₂, by
            rw [beq_iff_eq] at hbeq ⊢
            rw [hbeq, hd]⟩)
        rw [show (r :: dropDupKeepLast rs).filter (fun r => r.doi == doi) =
            r :: (dropDupKeepLast rs).filter (fun r => r.doi == doi) from by
          simp [List.filter_cons, hd]]
        rw [ih, hnil]
        rw [show (r :: rs).filter (fun r => r.doi == doi) =
            r :: rs.filter (fun r => r.doi == doi) from by
          simp [List.filter_cons, hd]]
        rw [hnil]
        rfl
      · rw [show (r :: dropDupKeepLast rs).filter (fun r => r.doi == doi) =
            (dropDupKeepLast rs).filter (fun r => r.doi == doi) from by
          simp [List.filter_cons, hd]]
        rw [ih]
        rw [show (r :: rs).filter (fun r => r.doi == doi) =
            rs.filter (fun r => r.doi == doi) from by
          simp [List.filter_cons, hd]]

/-- Unfolding of `dropDupKeepFirst` at a cons cell. -/
theorem dropDupKeepFirst_cons {α : Type} (r : Row α) (rs : List (Row α)) :
    dropDupKeepFirst (r :: rs) =
      r :: dropDupKeepFirst (rs.filter (fun r₂ => !(r₂.doi == r.doi))) := by
  rw [dropDupKeepFirst]

/-- Keep-first deduplication leaves, for each identifier, exactly the first
    row that carried it. -/
theorem dropDupKeepFirst_filter {α : Type} (doi : String) :
    ∀ l : List (Row α),
      (dropDupKeepFirst l).filter (fun r => r.doi == doi) =
        ((l.filter (fun r => r.doi == doi)).head?).toList := by
  have main : ∀ (n : ℕ) (l : List (Row α)), l.length = n →
      (dropDupKeepFirst l).filter (fun r => r.doi == doi) =
        ((l.filter (fun r => r.doi == doi)).head?).toList := by
    intro n
    induction n using Nat.strong_induction_on with
    | _ n ih =>
    intro l hn
    match l, hn with
    | [], _ => simp [dropDupKeepFirst]
    | r :: rs, hn =>
      have hlen : (rs.filter (fun r₂ => !(r₂.doi == r.doi))).length < n := by
        have := List.length_filter_le (fun r₂ => !(r₂.doi == r.doi)) rs
        simp only [List.length_cons] at hn
        omega
      have ihr := ih _ hlen (rs.filter (fun r₂ => !(r₂.doi == r.doi))) rfl
      rw [dropDupKeepFirst_cons]
      by_cases hd : r.doi = doi
      · have hnil :
            (rs.filter (fun r₂ => !(r₂.doi == r.doi))).filter
              (fun r => r.doi == doi) = [] := by
          rw [List.filter_filter, List.filter_eq_nil_iff]
          intro x _ hx
          rw [Bool.and_eq_true, beq_iff_eq, Bool.not_eq_true', beq_eq_false_iff_ne] at hx
          exact hx.2 (hx.1.trans hd.symm)
        rw [show (r :: dropDupKeepFirst
              (rs.filter (fun r₂ => !(r₂.doi == r.doi)))).filter
              (fun r => r.doi == doi) =
            r :: (dropDupKeepFirst
              (rs.filter (fun r₂ => !(r₂.doi == r.doi)))).filter
              (fun r => r.doi == doi) from by
          simp [List.filter_cons, hd]]
        rw [ihr, hnil]
        rw [show (r :: rs).filter (fun r => r.doi == doi) =
            r :: rs.filter (fun r => r.doi == doi) from by
          simp [List.filter_cons, hd]]
        rfl
      · have hkeep :
            (rs.filter (fun r₂ => !(r₂.doi == r.doi))).filter
              (fun r => r.doi == doi) =
            rs.filter (fun r => r.doi == doi) := by
          rw [List.filter_filter]
          refine List.filter_congr ?_
          intro x _
          by_cases hx : x.doi = doi
          · rw [hx]
            have hne : (doi == r.doi) = false :=
              beq_eq_false_iff_ne.2 (fun h => hd h.symm)
            simp [hne]
          · simp [beq_iff_eq, hx]
        rw [show (r :: dropDupKeepFirst
              (rs.filter (fun r₂ => !(r₂.doi == r.doi)))).filter
              (fun r => r.doi == doi) =
            (dropDupKeepFirst
              (rs.filter (fun r₂ => !(r₂.doi == r.doi)))).filter
              (fun r => r.doi == doi) from by
          simp [List.filter_cons, hd]]
        rw [ihr, hkeep]
        rw [show (r :: rs).filter (fun r => r.doi == doi) =
            rs.filter (fun r => r.doi == doi) from by
          simp [List.filter_cons, hd]]
  intro l
  exact main l.length l rfl

/-! ## Claim C6 -/

/-- C6 counterexample: `NatureRequestsScraper.save_progress` deduplicates
    with `keep='first'`, so after adding two records with the same
    identifier the row kept is the FIRST one, not the later one the claim
    promises.  (The two rows differ, so this is not a vacuous tie.) -/
theorem saveProgressNR_keeps_first_refuted :
    saveProgressNR ([] : List (Row ℕ)) [⟨"d1", 1⟩, ⟨"d1", 2⟩] = [⟨"d1", 1⟩] ∧
    (⟨"d1", 1⟩ : Row ℕ) ≠ ⟨"d1", 2⟩ := by
  constructor
  · rw [show saveProgressNR ([] : List (Row ℕ)) [⟨"d1", 1⟩, ⟨"d1", 2⟩] =
        dropDupKeepFirst [⟨"d1", 1⟩, ⟨"d1", 2⟩] from rfl]
    rw [dropDupKeepFirst_cons]
    simp [dropDupKeepFirst]
  · decide

/-- C6 (amended): after every save with nonempty in-memory data the
    persisted table holds at most one row per identifier in both scrapers;
    `MLReadyScraper.save_progress` (keep='last') keeps exactly the LAST
    record added for each identifier, while
    `NatureRequestsScraper.save_progress` (keep='first') keeps exactly the
    FIRST one — never a duplicate pair in either. -/
theorem saveProgress_dedup_amended :
    (∀ (α : Type) (prev data : List (Row α)) (doi : String), data ≠ [] →
      ((saveProgressML prev data).filter (fun r => r.doi == doi)).length ≤ 1 ∧
      ((saveProgressNR prev data).filter (fun r => r.doi == doi)).length ≤ 1) ∧
    (∀ (α : Type) (prev data : List (Row α)) (doi : String), data ≠ [] →
      (saveProgressML prev data).filter (fun r => r.doi == doi) =
        ((data.filter (fun r => r.doi == doi)).getLast?).toList) ∧
    (∀ (α : Type) (prev data : List (Row α)) (doi : String), data ≠ [] →
      (saveProgressNR prev data).filter (fun r => r.doi == doi) =
        ((data.filter (fun r => r.doi == doi)).head?).toList) := by
  have hml : ∀ (α : Type) (prev data : List (Row α)) (doi : String), data ≠ [] →
      (saveProgressML prev data).filter (fun r => r.doi == doi) =
        ((data.filter (fun r => r.doi == doi)).getLast?).toList := by
    intro α prev data doi hdata
    rw [show saveProgressML prev data = dropDupKeepLast data from by
      simp [saveProgressML, hdata]]
    exact dropDupKeepLast_filter doi data
  have hnr : ∀ (α : Type) (prev data : List (Row α)) (doi : String), data ≠ [] →
      (saveProgressNR prev data).filter (fun r => r.doi == doi) =
        ((data.filter (fun r => r.doi == doi)).head?).toList := by
    intro α prev data doi hdata
    rw [show saveProgressNR prev data = dropDupKeepFirst data from by
      simp [saveProgressNR, hdata]]
    exact dropDupKeepFirst_filter doi data
  refine ⟨?_, hml, hnr⟩
  intro α prev data doi hdata
  constructor
  · rw [hml α prev data doi hdata]
    cases (data.filter (fun r => r.doi == doi)).getLast? <;> simp
  · rw [hnr α prev data doi hdata]
    cases (data.filter (fun r => r.doi == doi)).head? <;> simp

/-- Witness for the C6 amended theorem on a concrete two-record table with
    one repeated identifier: ML keeps the later record, NR the earlier. -/
theorem saveProgress_dedup_amended_witness :
    (([⟨"d1", 1⟩, ⟨"d1", 2⟩] : List (Row ℕ)) ≠ [] ∧
      (saveProgressML ([] : List (Row ℕ)) [⟨"d1", 1⟩, ⟨"d1", 2⟩]).filter
          (fun r => r.doi == "d1") =
        ((([⟨"d1", 1⟩, ⟨"d1", 2⟩] : List (Row ℕ)).filter
          (fun r => r.doi == "d1")).getLast?).toList) ∧
    (saveProgressNR ([] : List (Row ℕ)) [⟨"d1", 1⟩, ⟨"d1", 2⟩]).filter
        (fun r => r.doi == "d1") =
      ((([⟨"d1", 1⟩, ⟨"d1", 2⟩] : List (Row ℕ)).filter
        (fun r => r.doi == "d1")).head?).toList :=
  ⟨⟨by decide,
      saveProgress_dedup_amended.2.1 ℕ [] [⟨"d1", 1⟩, ⟨"d1", 2⟩] "d1"
        (by decide)⟩,
    saveProgress_dedup_amended.2.2 ℕ [] [⟨"d1", 1⟩, ⟨"d1", 2⟩] "d1"
      (by decide)⟩

/-! ## `config.py` vocabularies (config.py lines 54-95) -/

/-- `CATALYST_KEYWORDS` (config.py lines 55-65): 24 elements, 10 compounds,
    4 material types, in source order. -/
def catalystKeywords : List String :=
  ["Ni", "Co", "Fe", "Mn", "Cu", "Zn", "Mo", "W", "V", "Cr",
   "Ru", "Ir", "Pt", "Pd", "Sn", "Pb", "Ti", "Nb", "Ta", "Zr",
   "Ce", "La", "Sr", "Ba",
   "MoS2", "NiFe-LDH", "Co3O4", "NiO", "Fe2O3", "NiCo2O4",
   "NiMoO4", "NiFe2O4", "CoOOH", "Ni(OH)2",
   "perovskite", "spinel", "LDH", "layered double hydroxide"]

/-- `ELEMENTS = CATALYST_KEYWORDS[:24]` (config.py line 67). -/
def elementsVocab : List String := catalystKeywords.take 24

/-- `COMPOUNDS = CATALYST_KEYWORDS[24:34]` (config.py line 68). -/
def compoundsVocab : List String := (catalystKeywords.drop 24).take 10

/-- `MATERIAL_TYPES = CATALYST_KEYWORDS[34:]` (config.py line 69). -/
def materialTypesVocab : List String := catalystKeywords.drop 34

/-- `SUBSTRATE_KEYWORDS` (config.py lines 71-75). -/
def substrateKeywords : List String :=
  ["nickel foam", "carbon cloth", "carbon paper", "glassy carbon",
   "GC", "FTO", "ITO", "copper foam", "titanium foil",
   "stainless steel", "graphene", "CNT", "carbon nanotube"]

/-- `ELECTROLYTE_KEYWORDS` (config.py lines 77-80). -/
def electrolyteKeywords : List String :=
  ["KOH", "NaOH", "H2SO4", "HCl", "H3PO4", "Na2CO3",
   "LiOH", "NH4Cl", "phosphate buffer", "PBS", "seawater"]

/-- `KEY_TERMS = CATALYST_KEYWORDS + SUBSTRATE_KEYWORDS +
    ELECTROLYTE_KEYWORDS` (config.py line 95). -/
def keyTerms : List String :=
  catalystKeywords ++ substrateKeywords ++ electrolyteKeywords

/-- `MIN_TEXT_LENGTH = 200` (config.py line 21). -/
def minTextLength : ℕ := 200

/-- Python attribute access for the list-valued vocabulary attributes of the
    `config` module: `some` for each name config.py defines, `none` — an
    `AttributeError` — for any other name.  In particular `MORPHOLOGIES`,
    `SUBSTRATES`, `ELECTROLYTES` and `PERFORMANCE_TERMS` are referenced by
    parser_ml_ready.py but defined nowhere in config.py, so they map to
    `none`. -/
def configVocab (name : String) : Option (List String) :=
  if name = "CATALYST_KEYWORDS" then some catalystKeywords
  else if name = "ELEMENTS" then some elementsVocab
  else if name = "COMPOUNDS" then some compoundsVocab
  else if name = "MATERIAL_TYPES" then some materialTypesVocab
  else if name = "SUBSTRATE_KEYWORDS" then some substrateKeywords
  else if name = "ELECTROLYTE_KEYWORDS" then some electrolyteKeywords
  else if name = "KEY_TERMS" then some keyTerms
  else none

/-- Attribute access in the exception monad: an undefined attribute raises
    `AttributeError`, modelled as `Except.error` carrying the missing name. -/
def configAttr (name : String) : Except String (List String) :=
  match configVocab name with
  | some v => Except.ok v
  | none => Except.error name

/-! ## `MLReadyParser` feature extractors (parser_ml_ready.py lines 157-248)

Values appearing in a feature record. -/

inductive PyVal where
  | str (s : String)
  | num (q : PyFloat)
  | int (n : ℤ)
  | bool (b : Bool)
  | pyNone
deriving DecidableEq, Repr

/-- Count of non-overlapping case-insensitive word-boundary occurrences of
    `kw` (Python `len(re.findall(r'\b' + re.escape(kw) + r'\b', text,
    re.IGNORECASE))`); `prevOk` records whether the previous character was a
    non-word character.  Every vocabulary keyword ends in a word character,
    so after a hit the resumed scan starts with `prevOk = false`. -/
def countWordGo (kw : List Char) (prevOk : Bool) : ℕ → List Char → ℕ
  | 0, _ => 0
  | _, [] => 0
  | fuel + 1, c :: rest =>
    let hits := ((mlit kw true) (c :: rest)).filter
      (fun p => p.2.isEmpty || !isWordCh (p.2.headD ' '))
    match prevOk, hits.head? with
    | true, some p => 1 + countWordGo kw false fuel p.2
    | _, _ => countWordGo kw (!isWordCh c) fuel rest

def countWord (kw : List Char) (text : List Char) : ℕ :=
  countWordGo kw true (text.length + 1) text

/-- `MLReadyParser.extract_element_counts` (lines 157-167): one integer
    count per element of `config.ELEMENTS`. -/
def extractElementCounts (text : List Char) :
    Except String (List (String × PyVal)) := do
  let elements ← configAttr "ELEMENTS"
  pure (elements.map (fun e =>
    ("element_" ++ e, PyVal.int (countWord e.data text))))

/-- `MLReadyParser.extract_compound_presence` (lines 169-177): one 0/1 flag
    per element of `config.COMPOUNDS`. -/
def extractCompoundPresence (text : List Char) :
    Except String (List (String × PyVal)) := do
  let compounds ← configAttr "COMPOUNDS"
  pure (compounds.map (fun c =>
    ("compound_" ++ c, PyVal.int (if wordSearch c.data text then 1 else 0))))

/-- `MLReadyParser.extract_material_properties` (lines 179-198): flags for
    `config.MATERIAL_TYPES`, then `config.MORPHOLOGIES` (undefined — this
    access raises `AttributeError`), then `config.SUBSTRATES` (undefined). -/
def extractMaterialProperties (text : List Char) :
    Except String (List (String × PyVal)) := do
  let materialTypes ← configAttr "MATERIAL_TYPES"
  let props₁ := materialTypes.map (fun m =>
    ("material_" ++ m, PyVal.int (if wordSearch m.data text then 1 else 0)))
  let morphologies ← configAttr "MORPHOLOGIES"
  let props₂ := morphologies.map (fun m =>
    ("morphology_" ++ m, PyVal.int (if wordSearch m.data text then 1 else 0)))
  let substrates ← configAttr "SUBSTRATES"
  let props₃ := substrates.map (fun s =>
    ("substrate_" ++ s, PyVal.int (if wordSearch s.data text then 1 else 0)))
  pure (props₁ ++ props₂ ++ props₃)

/-- Concentration pattern `(\d+\.?\d*)\s*M` of
    `extract_experimental_conditions` (line 213). -/
def concentrationPat : Matcher (List Char) := do
  let v ← capNumber
  _ ← clsRep isSpaceCh 0 none false
  _ ← mlit "M".data true
  pure v

/-- `MLReadyParser.extract_experimental_conditions` (lines 200-216): scans
    `config.ELECTROLYTES` (undefined — raises `AttributeError`), then a
    concentration capture. -/
def extractExperimentalConditions (text : List Char) :
    Except String (List (String × PyVal)) := do
  let electrolytes ← configAttr "ELECTROLYTES"
  let found := electrolytes.find? (fun e => wordSearch e.data text)
  let conc :=
    match research concentrationPat text with
    | some (m, _) => PyVal.num (parseFloatCapture m)
    | none => PyVal.pyNone
  pure [("electrolyte", (found.map PyVal.str).getD PyVal.pyNone),
        ("electrolyte_concentration", conc)]

/-- Faradaic-efficiency pattern
    `faradaic efficiency[\s\S]{0,100}?(\d+\.?\d*)%` (line 228). -/
def faradaicPat : Matcher (List Char) := do
  _ ← mlit "faradaic efficiency".data true
  _ ← clsRep (fun _ => true) 0 (some 100) true
  let v ← capNumber
  _ ← mlit "%".data true
  pure v

/-- Turnover-frequency pattern
    `turnover frequency[\s\S]{0,100}?(\d+\.?\d*)` (line 232). -/
def turnoverPat : Matcher (List Char) := do
  _ ← mlit "turnover frequency".data true
  _ ← clsRep (fun _ => true) 0 (some 100) true
  let v ← capNumber
  pure v

/-- `MLReadyParser.extract_performance_metrics` (lines 218-235): mention
    flags for `config.PERFORMANCE_TERMS` (undefined — raises
    `AttributeError`), then two numeric captures. -/
def extractPerformanceMetrics (text : List Char) :
    Except String (List (String × PyVal)) := do
  let terms ← configAttr "PERFORMANCE_TERMS"
  let mentions := terms.map (fun t =>
    ("mentions_" ++ t, PyVal.int (if wordSearch t.data text then 1 else 0)))
  let fe :=
    match research faradaicPat text with
    | some (m, _) => PyVal.num (parseFloatCapture m)
    | none => PyVal.pyNone
  let tof :=
    match research turnoverPat text with
    | some (m, _) => PyVal.num (parseFloatCapture m)
    | none => PyVal.pyNone
  pure (mentions ++ [("faradaic_efficiency", fe), ("turnover_frequency", tof)])

/-- Generic run-splitter used for `str.split()`-like operations and
    `re.split('[.!?]+', text)`: cut at each maximal run of separator
    characters. -/
def splitPunctLikeGo (p : Char → Bool) : List Char → List Char → List (List Char)
  | acc, [] => [acc.reverse]
  | acc, c :: rest =>
    if p c then acc.reverse :: splitPunctLikeGo p [] (rest.dropWhile p)
    else splitPunctLikeGo p (c :: acc) rest
termination_by _ l => l.length
decreasing_by
  · have := (List.dropWhile_sublist (l := rest) p).length_le
    simp only [List.length_cons]
    omega
  · simp only [List.length_cons]
    omega

def splitPunctLike (p : Char → Bool) (s : List Char) : List (List Char) :=
  splitPunctLikeGo p [] s

/-- Python `str.split()`: split on whitespace runs, dropping empties. -/
def pySplitWs (s : List Char) : List (List Char) :=
  (splitPunctLike isSpaceCh s).filter (fun w => !w.isEmpty)

/-- `MLReadyParser.extract_text_metrics` (lines 237-248). -/
def extractTextMetrics (text : List Char) : List (String × PyVal) :=
  let words := pySplitWs text
  let sentences := splitPunctLike (fun c => c == '.' || c == '!' || c == '?') text
  [("text_length", PyVal.int text.length),
   ("word_count", PyVal.int words.length),
   ("sentence_count", PyVal.int
      ((sentences.filter (fun s => !(pyStrip s).isEmpty)).length)),
   ("avg_sentence_length", PyVal.num ⟨words.length, sentences.length⟩),
   ("unique_words", PyVal.int (words.eraseDups).length)]

/-- Leftmost match of the DOI regex `articles/([^/?]+)`: the text after the
    first occurrence of "articles/" followed by at least one character other
    than a slash or question mark (regex `re.search` semantics: the capture
    class needs one or more characters, so a match directly followed by a
    separator fails there and the scan continues). -/
def extractDoiOpt : List Char → Option (List Char)
  | [] => none
  | c :: rest =>
    if "articles/".data.isPrefixOf (c :: rest) then
      let after := (c :: rest).drop "articles/".data.length
      let doi := after.takeWhile (fun d => d != '/' && d != '?')
      if doi.isEmpty then extractDoiOpt rest else some doi
    else extractDoiOpt rest

/-- `MLReadyParser.extract_doi_from_url` (lines 130-133), identical in
    `NatureRequestsScraper`: the DOI capture, or the empty string when the
    regex never matches. -/
def extractDoiFromUrl (url : String) : String :=
  match extractDoiOpt url.data with
  | some doi => ⟨doi⟩
  | none => ""

/-- `MLReadyParser.parse_single_article` (lines 250-293).  The HTML loading
    and BeautifulSoup text extraction are external collaborators, so the
    extracted main text and the metadata mapping enter as inputs; the
    quantitative-feature step (lines 147-155, a pure regex pass whose
    values never influence the result) enters as a function parameter.
    Python `dict.update` is modelled by appending entries (later duplicates
    would override, but no record ever escapes this function).  The
    `except Exception` handler turns any raised error into `None`. -/
def parseSingleArticle
    (quantFeatures : List Char → List (String × PyVal))
    (metadata : List (String × PyVal))
    (mainText : List Char) (url : String) : Option (List (String × PyVal)) :=
  if mainText.length < 200 then none
  else
    let run : Except String (List (String × PyVal)) := do
      let base := [("url", PyVal.str url),
                   ("doi", PyVal.str (extractDoiFromUrl url)),
                   ("text_length", PyVal.int mainText.length)]
      let d₁ := base ++ metadata
      let d₂ := d₁ ++ quantFeatures mainText
      let d₃ := d₂ ++ (← extractElementCounts mainText)
      let d₄ := d₃ ++ (← extractCompoundPresence mainText)
      let d₅ := d₄ ++ (← extractMaterialProperties mainText)
      let d₆ := d₅ ++ (← extractExperimentalConditions mainText)
      let d₇ := d₆ ++ (← extractPerformanceMetrics mainText)
      pure (d₇ ++ extractTextMetrics mainText)
    match run with
    | Except.ok d => some d
    | Except.error _ => none

/-! ## Claim C4 -/

/-- C4: for every extracted main text, metadata mapping, quantitative
    feature pass and url, `MLReadyParser.parse_single_article` returns
    `None`: a short text is rejected, and otherwise the feature-extraction
    sequence raises `AttributeError` — `extract_material_properties` is the
    first to read an undefined config attribute (`config.MORPHOLOGIES`;
    `SUBSTRATES`, `ELECTROLYTES` and `PERFORMANCE_TERMS` are equally
    undefined in config.py) — which the `except Exception` handler turns
    into `None`, so the ML-ready pipeline never appends a feature record. -/
theorem parseSingleArticle_always_none :
    (∀ (quantFeatures : List Char → List (String × PyVal))
        (metadata : List (String × PyVal)) (mainText : List Char)
        (url : String),
      parseSingleArticle quantFeatures metadata mainText url = none) ∧
    (∀ text : List Char,
      extractMaterialProperties text = Except.error "MORPHOLOGIES") ∧
    configVocab "MORPHOLOGIES" = none ∧
    configVocab "SUBSTRATES" = none ∧
    configVocab "ELECTROLYTES" = none ∧
    configVocab "PERFORMANCE_TERMS" = none := by
  have hmat : ∀ text : List Char,
      extractMaterialProperties text = Except.error "MORPHOLOGIES" := by
    intro text
    rfl
  refine ⟨?_, hmat, rfl, rfl, rfl, rfl⟩
  intro qf md mt url
  unfold parseSingleArticle
  by_cases hlen : mt.length < 200
  · rw [if_pos hlen]
  · rw [if_neg hlen]
    rfl

/-! ## `Parser.find_catalyst` / `find_substrate` / `find_electrolyte`
    (parser.py lines 60-126) -/

/-- Structural-capture class `[A-Za-z0-9\s\-` slash `]` of the catalyst
    patterns (config.py lines 83-86). -/
def isCatNameCh (c : Char) : Bool :=
  c.isAlphanum || isSpaceCh c || c == '-' || c == '/'

/-- First catalyst pattern (config.py line 84):
    `(?:catalyst|electrocatalyst|material)` then a lazy gap of at most 150
    characters, a lazy nonempty capture of name characters, and a
    terminator `(?:was|is|shows|exhibits|\.|,)`. -/
def catalystPat1 : Matcher (List Char) := do
  _ ← malt (mlit "catalyst".data true)
      (malt (mlit "electrocatalyst".data true) (mlit "material".data true))
  _ ← clsRep (fun _ => true) 0 (some 150) true
  let v ← clsRep isCatNameCh 1 none true
  _ ← malt (mlit "was".data true)
      (malt (mlit "is".data true)
        (malt (mlit "shows".data true)
          (malt (mlit "exhibits".data true)
            (malt (mlit ".".data true) (mlit ",".data true)))))
  pure v

/-- Second catalyst pattern (config.py line 85): a greedy nonempty capture
    of name characters followed by `\s+based\s+catalyst` or
    `\s+electrocatalyst`. -/
def catalystPat2 : Matcher (List Char) := do
  let v ← clsRep isCatNameCh 1 none false
  _ ← malt
      (do
        _ ← clsRep isSpaceCh 1 none false
        _ ← mlit "based".data true
        _ ← clsRep isSpaceCh 1 none false
        mlit "catalyst".data true)
      (do
        _ ← clsRep isSpaceCh 1 none false
        mlit "electrocatalyst".data true)
  pure v

/-- `CATALYST_PATTERNS` in source order. -/
def catalystPatterns : List (Matcher (List Char)) := [catalystPat1, catalystPat2]

/-- Substrate-capture class `[a-zA-Z0-9\s\-]` (config.py lines 89-92). -/
def isSubNameCh (c : Char) : Bool := c.isAlphanum || isSpaceCh c || c == '-'

/-- First substrate pattern (config.py line 90):
    `(?:on|deposited on|supported on)\s+` then a lazy nonempty capture and a
    terminator `(?:substrate|electrode|foam|paper|cloth)`. -/
def substratePat1 : Matcher (List Char) := do
  _ ← malt (mlit "on".data true)
      (malt (mlit "deposited on".data true) (mlit "supported on".data true))
  _ ← clsRep isSpaceCh 1 none false
  let v ← clsRep isSubNameCh 1 none true
  _ ← malt (mlit "substrate".data true)
      (malt (mlit "electrode".data true)
        (malt (mlit "foam".data true)
          (malt (mlit "paper".data true) (mlit "cloth".data true))))
  pure v

/-- Second substrate pattern (config.py line 91):
    `substrate[:\s]+` then a greedy nonempty capture. -/
def substratePat2 : Matcher (List Char) := do
  _ ← mlit "substrate".data true
  _ ← clsRep (fun c => c == ':' || isSpaceCh c) 1 none false
  let v ← clsRep isSubNameCh 1 none false
  pure v

/-- `SUBSTRATE_PATTERNS` in source order. -/
def substratePatterns : List (Matcher (List Char)) := [substratePat1, substratePat2]

/-- Shared two-tier entity search of `find_catalyst` and `find_substrate`
    (parser.py lines 60-93): for each structural pattern, for each findall
    capture, return the whitespace-stripped capture as soon as some
    vocabulary keyword occurs in it case-insensitively; if no capture
    validates, return the first keyword occurring in the text as a
    case-insensitive whole word; otherwise `None`. -/
def findEntity (pats : List (Matcher (List Char))) (keywords : List String)
    (text : String) : Option String :=
  match pats.findSome? (fun p =>
      (finditer p text.data).findSome? (fun m =>
        let candidate := pyStrip m
        keywords.findSome? (fun kw =>
          if isSubstr (lowers kw.data) (lowers candidate) then
            some (⟨candidate⟩ : String)
          else none))) with
  | some c => some c
  | none => keywords.find? (fun kw => wordSearch kw.data text.data)

/-- `Parser.find_catalyst` (parser.py lines 60-77). -/
def findCatalyst (text : String) : Option String :=
  findEntity catalystPatterns catalystKeywords text

/-- `Parser.find_substrate` (parser.py lines 79-93). -/
def findSubstrate (text : String) : Option String :=
  findEntity substratePatterns substrateKeywords text

/-- Name class of the electrolyte pattern (parser.py line 115):
    `[A-Za-z0-9\-\(\)` slash `·–\s]`. -/
def isElecNameCh (c : Char) : Bool :=
  c.isAlphanum || c == '-' || c == '(' || c == ')' || c == '/' ||
    c == '·' || c == '–' || isSpaceCh c

/-- Electrolyte candidate pattern (parser.py lines 114-117, case
    sensitive): `([A-Z][name class]` repeated 5 to 80 times `)\s*` then
    `(?:catalyst|electrocatalyst)`. -/
def electrolytePat : Matcher (List Char) := do
  let c₀ ← mcls (fun c => 'A' ≤ c && c ≤ 'Z')
  let body ← clsRep isElecNameCh 5 (some 80) false
  _ ← clsRep isSpaceCh 0 none false
  _ ← malt (mlit "catalyst".data false) (mlit "electrocatalyst".data false)
  pure (c₀ :: body)

/-- `Parser.find_electrolyte` (parser.py lines 98-126): per context
    sentence, `re.search` the candidate pattern; keep the stripped capture
    when it has at least two whitespace-separated words; return the first
    candidate or `None`. -/
def findElectrolyte (text : String) : Option String :=
  let candidates := (splitSentences text.data).filterMap (fun sent =>
    if ["catalyst".data, "electrocatalyst".data].any
        (fun k => isSubstr k (lowers sent)) then
      match research electrolytePat sent with
      | some (name, _) =>
        let name := pyStrip name
        if 2 ≤ (pySplitWs name).length then some name else none
      | none => none
    else none)
  (candidates.head?).map (fun c => (⟨c⟩ : String))

/-! ## `Parser.extract_text_from_pdf` and `Parser.parse_pdf`
    (parser.py lines 42-58 and 177-209) -/

/-- `extract_text_from_pdf`: concatenate the text of each page that yields
    any (pdfplumber's per-page extraction is the oracle input).  A total
    below `MIN_TEXT_LENGTH` only triggers a warning that says "skipping"
    (`"Texto muito curto… pulando…"`) — the short text is returned all the
    same.  (`None` is returned only when the PDF library itself raises,
    which is outside this embedding.) -/
def extractTextFromPdf (pages : List (Option String)) : String :=
  pages.foldl (fun acc p => match p with | some t => acc ++ t | none => acc) ""

/-- Record produced by `parse_pdf`: the four extracted fields plus the file
    name. -/
structure ParsedRecord where
  pdfName : String
  catalyst : Option String
  substrate : Option String
  electrolyte : Option String
  overpotential : Option OverpotentialHit

/-- `Parser.parse_pdf` (parser.py lines 177-209): `None` only when the
    extracted text is falsy (empty); any nonempty text — of whatever
    length — produces a record that `main` then appends and persists. -/
def parsePdf (pages : List (Option String)) (pdfName : String) :
    Option ParsedRecord :=
  let text := extractTextFromPdf pages
  if text = "" then none
  else some
    { pdfName := pdfName
      catalyst := findCatalyst text
      substrate := findSubstrate text
      electrolyte := findElectrolyte text
      overpotential := findOverpotential text }

/-! ## Claim C8 -/

/-- Page oracle of a PDF whose per-page extraction totals 150 characters. -/
def pdfPages150 : List (Option String) := [some ⟨List.replicate 150 'a'⟩]

/-- C8: contrary to the claim (and to the "skipping" wording of the code's
    own warning), `Parser.extract_text_from_pdf` returns a below-threshold
    text unchanged, and `parse_pdf` produces a record for every nonempty
    text, so a 150-character document still yields a persisted record;
    `MLReadyParser.parse_single_article` does reject a 199-character text,
    and at exactly 200 characters its length gate passes yet the result is
    still `None` (the record is lost to the undefined-config exception). -/
theorem short_pdf_text_not_rejected :
    (∀ (pages : List (Option String)) (name : String),
      extractTextFromPdf pages ≠ "" → (parsePdf pages name).isSome = true) ∧
    (extractTextFromPdf pdfPages150).length = 150 ∧
    150 < minTextLength ∧
    (parsePdf pdfPages150 "short.pdf").isSome = true ∧
    parseSingleArticle (fun _ => []) [] (List.replicate 199 'a') "u" = none ∧
    parseSingleArticle (fun _ => []) [] (List.replicate 200 'a') "u" = none := by
  refine ⟨?_, by decide, by decide, by decide, by rfl, by rfl⟩
  intro pages name h
  unfold parsePdf
  rw [if_neg h]
  rfl

/-- Witness for the C8 theorem at the 150-character PDF. -/
theorem short_pdf_text_not_rejected_witness :
    extractTextFromPdf pdfPages150 ≠ "" ∧
    (parsePdf pdfPages150 "short.pdf").isSome = true :=
  ⟨by decide, short_pdf_text_not_rejected.1 pdfPages150 "short.pdf" (by decide)⟩

/-! ## Claim C10: supporting definitions and lemmas -/

/-- Tier-1 structural candidates: every findall capture of every pattern,
    in pattern-major source order, whitespace-stripped. -/
def structuralCandidates (pats : List (Matcher (List Char)))
    (text : List Char) : List (List Char) :=
  (pats.flatMap (fun p => finditer p text)).map pyStrip

/-- Tier-1 result: the first structural candidate containing some
    vocabulary keyword case-insensitively. -/
def entityTier1 (pats : List (Matcher (List Char))) (keywords : List String)
    (text : List Char) : Option (List Char) :=
  (structuralCandidates pats text).find?
    (fun cand => keywords.any (fun kw => isSubstr (lowers kw.data) (lowers cand)))

/-- Tier-2 result: the first vocabulary keyword, in vocabulary order,
    occurring in the text as a case-insensitive whole word. -/
def entityTier2 (keywords : List String) (text : List Char) : Option String :=
  keywords.find? (fun kw => wordSearch kw.data text)

/-- Scanning a keyword list for the first hit against a fixed candidate is
    the candidate-level validation test. -/
theorem findSome?_const_candidate (cand : List Char) (keywords : List String) :
    keywords.findSome? (fun kw =>
        if isSubstr (lowers kw.data) (lowers cand) then
          some ((⟨cand⟩ : String))
        else none) =
      (if keywords.any (fun kw => isSubstr (lowers kw.data) (lowers cand)) then
        some ((⟨cand⟩ : String))
      else none) := by
  induction keywords with
  | nil => rfl
  | cons kw kws ih =>
    rw [List.findSome?_cons, List.any_cons]
    by_cases h : isSubstr (lowers kw.data) (lowers cand) = true
    · simp [h]
    · rw [Bool.not_eq_true] at h
      simp only [h, Bool.false_or, if_neg, Bool.false_eq_true, not_false_iff]
      simpa using ih

/-- The candidate loop of `findEntity` is `find?` over the stripped
    candidates followed by the string wrap. -/
theorem findSome?_candidates (keywords : List String) :
    ∀ ms : List (List Char),
      ms.findSome? (fun m =>
          let candidate := pyStrip m
          keywords.findSome? (fun kw =>
            if isSubstr (lowers kw.data) (lowers candidate) then
              some ((⟨candidate⟩ : String))
            else none)) =
        ((ms.map pyStrip).find?
          (fun cand =>
            keywords.any (fun kw => isSubstr (lowers kw.data) (lowers cand)))).map
          (fun c => (⟨c⟩ : String)) := by
  intro ms
  induction ms with
  | nil => rfl
  | cons m rest ih =>
    simp only [List.findSome?_cons, List.map_cons, List.find?_cons]
    rw [findSome?_const_candidate (pyStrip m) keywords]
    by_cases h : keywords.any
        (fun kw => isSubstr (lowers kw.data) (lowers (pyStrip m))) = true
    · simp [h]
    · rw [Bool.not_eq_true] at h
      simp only [h, Bool.false_eq_true, not_false_iff, if_neg]
      simpa using ih

/-- Chained search: scanning patterns and then their matches is scanning
    the flattened match list. -/
theorem findSome?_flatMap {β γ δ : Type} (l : List β) (f : β → List γ)
    (g : γ → Option δ) :
    (l.flatMap f).findSome? g = l.findSome? (fun p => (f p).findSome? g) := by
  induction l with
  | nil => rfl
  | cons p ps ih =>
    rw [List.flatMap_cons, List.findSome?_append, List.findSome?_cons]
    cases hfp : (f p).findSome? g with
    | none => exact ih
    | some b => rfl

/-- The shared entity search is exactly the two-tier description. -/
theorem findEntity_two_tier (pats : List (Matcher (List Char)))
    (keywords : List String) (text : String) :
    findEntity pats keywords text =
      match entityTier1 pats keywords text.data with
      | some c => some ((⟨c⟩ : String))
      | none => entityTier2 keywords text.data := by
  unfold findEntity entityTier1 entityTier2 structuralCandidates
  rw [← findSome?_flatMap, findSome?_candidates]
  cases hf : (((pats.flatMap (fun p => finditer p text.data)).map pyStrip).find?
      (fun cand =>
        keywords.any (fun kw => isSubstr (lowers kw.data) (lowers cand)))) with
  | none => simp
  | some c => simp

/-! ## Claim C10 -/

/-- C10: `Parser.find_catalyst` is the two-tier search: a structural capture
    (whitespace-trimmed) is returned only when it contains a catalyst
    keyword case-insensitively, and when no structural match validates the
    result is the first keyword of the vocabulary, in vocabulary order,
    occurring as a case-insensitive whole word — `None` when neither tier
    produces anything. -/
theorem findCatalyst_two_tier :
    (∀ text : String,
      findCatalyst text =
        match entityTier1 catalystPatterns catalystKeywords text.data with
        | some c => some ((⟨c⟩ : String))
        | none => entityTier2 catalystKeywords text.data) ∧
    (∀ (text c : List Char),
      entityTier1 catalystPatterns catalystKeywords text = some c →
      c ∈ structuralCandidates catalystPatterns text ∧
      catalystKeywords.any
        (fun kw => isSubstr (lowers kw.data) (lowers c)) = true) ∧
    (∀ text : List Char,
      (entityTier2 catalystKeywords text = none ↔
        ∀ kw ∈ catalystKeywords, wordSearch kw.data text = false)) := by
  refine ⟨?_, ?_, ?_⟩
  · intro text
    exact findEntity_two_tier catalystPatterns catalystKeywords text
  · intro text c h
    unfold entityTier1 at h
    have h₂ := List.find?_some h
    exact ⟨List.mem_of_find?_eq_some h, by simpa using h₂⟩
  · intro text
    unfold entityTier2
    rw [List.find?_eq_none]
    constructor
    · intro h kw hkw
      have := h kw hkw
      rwa [Bool.not_eq_true] at this
    · intro h kw hkw
      rw [h kw hkw]
      exact Bool.false_ne_true

/-- Witness for the C10 theorem at a text whose first structural capture
    validates: tier 1 fires and its output is a stripped capture that
    contains a known keyword case-insensitively. -/
theorem findCatalyst_two_tier_witness :
    entityTier1 catalystPatterns catalystKeywords
        "The NiFe-LDH electrocatalyst was tested.".data =
      some "The NiFe-LDH".data ∧
    "The NiFe-LDH".data ∈ structuralCandidates catalystPatterns
        "The NiFe-LDH electrocatalyst was tested.".data ∧
    catalystKeywords.any
      (fun kw => isSubstr (lowers kw.data) (lowers "The NiFe-LDH".data)) = true :=
  ⟨by decide,
    (findCatalyst_two_tier.2.1
      "The NiFe-LDH electrocatalyst was tested.".data "The NiFe-LDH".data
      (by decide)).1,
    (findCatalyst_two_tier.2.1
      "The NiFe-LDH electrocatalyst was tested.".data "The NiFe-LDH".data
      (by decide)).2⟩

/-! ## `MLReadyScraper.download_and_process_article` and
    `is_already_processed` (scraper_ml_ready.py lines 97-150)

The identifier used for the skip check (lines 100-102): the DOI regex
capture, or the sanitized last 50 url characters when the regex fails. -/

def downloadDoi (url : String) : String :=
  match extractDoiOpt url.data with
  | some doi => ⟨doi⟩
  | none =>
    ⟨(url.data.drop (url.data.length - 50)).map
      (fun c => if c.isAlphanum then c else '_')⟩

/-- `is_already_processed(doi)` (lines 142-150): the persisted table holds
    a row with this identifier.  (A missing or unreadable checkpoint file
    reads as the empty table, for which this is `false`.) -/
def isAlreadyProcessed {α : Type} (table : List (Row α)) (doi : String) : Bool :=
  table.any (fun r => r.doi == doi)

/-- One step of `download_and_process_article` over the flushed table
    (lines 97-140).  The fetch, the "looks like an article" check and the
    parse are summed up by the oracle `f`, which returns the record a
    successful fetch-and-parse would append (`none` for any failure); the
    skip check happens before any network access.  Results: the new table,
    whether a fetch was issued, and the boolean the method returns. -/
def processArticle {α : Type} (f : String → Option (Row α))
    (table : List (Row α)) (url : String) : List (Row α) × Bool × Bool :=
  let doi := downloadDoi url
  if isAlreadyProcessed table doi then (table, false, true)
  else
    match f url with
    | none => (table, true, false)
    | some r => (table ++ [r], true, true)

/-- A full acquisition pass over one listing's candidate urls, flushing
    after every article (`save_progress` is called per success, so the
    skip check of a later candidate sees every earlier append). -/
def runAcquisition {α : Type} (f : String → Option (Row α))
    (table : List (Row α)) (urls : List String) : List (Row α) :=
  urls.foldl (fun t u => (processArticle f t u).1) table

/-- A step never removes an identifier from the table. -/
theorem processArticle_mono {α : Type} (f : String → Option (Row α))
    (t : List (Row α)) (u : String) (d : String)
    (h : t.any (fun r => r.doi == d) = true) :
    ((processArticle f t u).1.any (fun r => r.doi == d)) = true := by
  unfold processArticle
  by_cases hc : isAlreadyProcessed t (downloadDoi u) = true
  · rw [if_pos hc]
    exact h
  · rw [if_neg hc]
    cases hf : f u with
    | none => exact h
    | some r => simp [List.any_append, h]

/-- A step on a candidate that can contribute nothing leaves the table
    unchanged. -/
theorem processArticle_noop {α : Type} (f : String → Option (Row α))
    (t : List (Row α)) (u : String)
    (h : f u = none ∨ t.any (fun r => r.doi == downloadDoi u) = true) :
    (processArticle f t u).1 = t := by
  unfold processArticle
  by_cases hc : isAlreadyProcessed t (downloadDoi u) = true
  · simp [hc]
  · rw [Bool.not_eq_true] at hc
    rcases h with h | h
    · simp [hc, h]
    · unfold isAlreadyProcessed at hc
      rw [h] at hc
      cases hc
  -- the second branch is impossible: the skip check is that very `any`

/-- After a step, the candidate is accounted for: either its fetch-parse
    fails deterministically, or its identifier is now in the table. -/
theorem processArticle_establish {α : Type} (f : String → Option (Row α))
    (hdoi : ∀ u r, f u = some r → r.doi = downloadDoi u)
    (t : List (Row α)) (u : String) :
    f u = none ∨
      ((processArticle f t u).1.any (fun r => r.doi == downloadDoi u)) = true := by
  by_cases hc : isAlreadyProcessed t (downloadDoi u) = true
  · right
    unfold processArticle
    rw [if_pos hc]
    unfold isAlreadyProcessed at hc
    exact hc
  · cases hf : f u with
    | none => left; rfl
    | some r =>
      right
      unfold processArticle
      rw [if_neg hc, hf]
      have hd : r.doi = downloadDoi u := hdoi u r hf
      simp [List.any_append, hd]

/-- Identifier presence is preserved by a whole pass. -/
theorem runAcquisition_mono {α : Type} (f : String → Option (Row α))
    (d : String) :
    ∀ (urls : List String) (t : List (Row α)),
      t.any (fun r => r.doi == d) = true →
      ((runAcquisition f t urls).any (fun r => r.doi == d)) = true := by
  intro urls
  induction urls with
  | nil => intro t h; exact h
  | cons u us ih =>
    intro t h
    exact ih _ (processArticle_mono f t u d h)

/-- After a pass every processed candidate either fails deterministically
    or has its identifier in the final table. -/
theorem runAcquisition_establish {α : Type} (f : String → Option (Row α))
    (hdoi : ∀ u r, f u = some r → r.doi = downloadDoi u) :
    ∀ (urls : List String) (t : List (Row α)) (u : String), u ∈ urls →
      f u = none ∨
        ((runAcquisition f t urls).any
          (fun r => r.doi == downloadDoi u)) = true := by
  intro urls
  induction urls with
  | nil => intro t u hu; cases hu
  | cons v vs ih =>
    intro t u hu
    rcases List.mem_cons.1 hu with rfl | hu
    · rcases processArticle_establish f hdoi t u with h | h
      · exact Or.inl h
      · exact Or.inr (runAcquisition_mono f _ vs _ h)
    · exact ih _ u hu

/-- A pass over candidates that are each accounted for changes nothing. -/
theorem runAcquisition_noop {α : Type} (f : String → Option (Row α)) :
    ∀ (urls : List String) (t : List (Row α)),
      (∀ u ∈ urls,
        f u = none ∨ t.any (fun r => r.doi == downloadDoi u) = true) →
      runAcquisition f t urls = t := by
  intro urls
  induction urls with
  | nil => intro t _; rfl
  | cons v vs ih =>
    intro t h
    have hstep : (processArticle f t v).1 = t :=
      processArticle_noop f t v (h v (List.mem_cons_self v vs))
    show runAcquisition f (processArticle f t v).1 vs = t
    rw [hstep]
    exact ih t (fun u hu => h u (List.mem_cons_of_mem v hu))

/-! ## Claim C7 -/

/-- C7: a candidate whose identifier is already in the persisted checkpoint
    table is skipped before any fetch — the step returns `(table, no fetch,
    True)` — and, provided the fetch-parse oracle is deterministic and
    stores each record under the identifier derived from its url (as
    `parse_single_article` does), running acquisition a second time over
    the same listing with the checkpoint left by the first run adds zero
    new rows. -/
theorem acquisition_skip_and_idempotent :
    (∀ (α : Type) (f : String → Option (Row α)) (table : List (Row α))
        (url : String),
      isAlreadyProcessed table (downloadDoi url) = true →
      processArticle f table url = (table, false, true)) ∧
    (∀ (α : Type) (f : String → Option (Row α)) (table : List (Row α))
        (urls : List String),
      (∀ u r, f u = some r → r.doi = downloadDoi u) →
      runAcquisition f (runAcquisition f table urls) urls =
        runAcquisition f table urls) := by
  constructor
  · intro α f table url h
    unfold processArticle
    simp [h]
  · intro α f table urls hdoi
    exact runAcquisition_noop f urls (runAcquisition f table urls)
      (fun u hu => runAcquisition_establish f hdoi urls table u hu)

/-- Witness for the C7 theorem: a concrete already-processed candidate is
    skipped without fetching, and a second pass over a one-url listing with
    an always-failing fetch oracle adds nothing. -/
theorem acquisition_skip_and_idempotent_witness :
    (isAlreadyProcessed [(⟨"abc123", 0⟩ : Row ℕ)]
        (downloadDoi "https://www.nature.com/articles/abc123") = true ∧
      processArticle (fun _ => (none : Option (Row ℕ)))
          [(⟨"abc123", 0⟩ : Row ℕ)] "https://www.nature.com/articles/abc123" =
        ([(⟨"abc123", 0⟩ : Row ℕ)], false, true)) ∧
    runAcquisition (fun _ => (none : Option (Row ℕ)))
        (runAcquisition (fun _ => (none : Option (Row ℕ))) []
          ["https://www.nature.com/articles/xyz"])
        ["https://www.nature.com/articles/xyz"] =
      runAcquisition (fun _ => (none : Option (Row ℕ))) []
        ["https://www.nature.com/articles/xyz"] :=
  ⟨⟨by decide,
      acquisition_skip_and_idempotent.1 ℕ (fun _ => none)
        [(⟨"abc123", 0⟩ : Row ℕ)] "https://www.nature.com/articles/abc123"
        (by decide)⟩,
    acquisition_skip_and_idempotent.2 ℕ (fun _ => none) []
      ["https://www.nature.com/articles/xyz"]
      (fun u r h => Option.noConfusion h)⟩

end OERScraper
